import Mathlib

/-!
Shallow embedding of hzeller/libargparse (src/argparse.cpp, src/argparse_util.cpp).

Strings are modelled as Lean `String`s (wrappers around `List Char`), C++
`throw ArgParseError(...)` as `Except.error` with a structured `ParseErr`
constructor per throw site (each constructor carries the data interpolated
into the C++ message), and C `assert` failures (debug aborts) as the
distinguished `ParseErr.assertionFailure`.  The destination-binding entry
points `set_dest_to_default` / `set_dest_to_value_from_str` are declared in
argparse.hpp (not part of src/); they are modelled from the spec as writing
an optional string slot `dest` carried by each `Argument`.
-/

namespace Argparse

/-- Embeds `split_leading_dashes` from argparse_util.cpp: splits a string into
its maximal leading run of dashes and the rest. -/
def split_leading_dashes (str : String) : String × String :=
  (⟨str.data.takeWhile (· == '-')⟩, ⟨str.data.dropWhile (· == '-')⟩)

/-- Embeds the per-character behaviour of C `::toupper` in the default locale:
lowercase ASCII letters are upper-cased, all other characters are unchanged. -/
def toupperChar (c : Char) : Char :=
  if 'a' ≤ c ∧ c ≤ 'z' then Char.ofNat (c.toNat - 32) else c

/-- Embeds `toupper` from argparse_util.cpp (upper-cases every character). -/
def toupper (str : String) : String :=
  ⟨str.data.map toupperChar⟩

/-- Embeds `is_argument` from argparse_util.cpp: a token is option-shaped iff
it is exactly `-X` (X not a dash) or `--X...` (length > 2, third char not a
dash). -/
def is_argument (str : String) : Bool :=
  if str.data.length = 2 ∧ str.data.get? 0 = some '-' ∧ str.data.get? 1 ≠ some '-' then
    true
  else if 2 < str.data.length ∧ str.data.get? 0 = some '-' ∧ str.data.get? 1 = some '-'
      ∧ str.data.get? 2 ≠ some '-' then
    true
  else
    false

/-- Embeds the `Action` enum of argparse.hpp (values used by argparse.cpp). -/
inductive Action where
  | STORE
  | STORE_TRUE
  | STORE_FALSE
deriving DecidableEq, Inhabited, Repr

/-- Structured stand-ins for every `throw ArgParseError(...)` site in
argparse.cpp, each carrying the data interpolated into the C++ message, plus
`assertionFailure` for C `assert` aborts. -/
inductive ParseErr where
  /-- "Option string '(opt)' maps to multiple options" -/
  | optionMapsToMultiple (opt : String)
  /-- "Missing expected argument for '(tok)'" -/
  | missingExpectedArgument (tok : String)
  /-- "Expected at least (n) values for argument '(tok)'" -/
  | expectedAtLeast (n : Nat) (tok : String)
  /-- "Unexpected command-line argument '(tok)'" -/
  | unexpectedArgument (tok : String)
  /-- "Missing required positional argument: (name)" -/
  | missingRequiredPositional (name : String)
  /-- "Argument must be at least one character long" -/
  | argTooShort
  /-- "Long option must be specified before short option" -/
  | longBeforeShort
  /-- "More than two dashes in argument name" -/
  | tooManyDashes
  /-- "Invalid argument to nargs (must be one of: ...)" -/
  | invalidNargs
  /-- "STORE_FALSE action requires nargs to be 0" -/
  | storeFalseNeedsZero
  /-- "STORE_TRUE action requires nargs to be 0" -/
  | storeTrueNeedsZero
  /-- "STORE action requires nargs to be 1" -/
  | storeNeedsOne
  /-- a failed C `assert` (debug abort), not an ArgParseError -/
  | assertionFailure
deriving DecidableEq, Inhabited, Repr

/-- Embeds the `Argument` class state of argparse.hpp as used by argparse.cpp.
Field names mirror the C++ members.  `dest` models the bound destination
(see module docstring); fields not assigned by the constructor carry the
spec-implied defaults (STORE action with exactly-one arity). -/
structure Argument where
  long_opt_ : String
  short_opt_ : String
  help_ : String := ""
  nargs_ : Char := '1'
  metavar_ : String := ""
  action_ : Action := Action.STORE
  required_ : Bool := false
  default_value_ : String := ""
  default_set_ : Bool := false
  /-- Modelled from the spec: the Argument's bound destination, `none` until
  one of the two mutation entry points writes it. -/
  dest : Option String := none
deriving DecidableEq, Inhabited, Repr

/-- Modelled from the spec: `set_dest_to_default` (declared in argparse.hpp,
not in src/) applies the configured default to the bound destination. -/
def Argument.set_dest_to_default (a : Argument) : Argument :=
  { a with dest := some a.default_value_ }

/-- Modelled from the spec: `set_dest_to_value_from_str` (declared in
argparse.hpp, not in src/) binds the given string to the destination. -/
def Argument.set_dest_to_value_from_str (a : Argument) (value : String) : Argument :=
  { a with dest := some value }

/-- Embeds `Argument::positional`'s return expression
`long_option()[0] != '-'` (its `assert(long_option().size() > 1)` is modelled
at the call site in the lookup construction; `[0]` on an empty `std::string`
reads the NUL terminator). -/
def Argument.positional (a : Argument) : Bool :=
  a.long_opt_.data.headD (Char.ofNat 0) != '-'

/-- Embeds the `Argument::Argument(long_opt, short_opt)` constructor:
validates the names and defaults the metavar to the upper-cased long name
with its leading dashes stripped. -/
def Argument.construct (long_opt short_opt : String) : Except ParseErr Argument :=
  if long_opt.length < 1 then
    .error ParseErr.argTooShort
  else if (split_leading_dashes long_opt).1.length = 1 ∧ short_opt ≠ "" then
    .error ParseErr.longBeforeShort
  else if (split_leading_dashes long_opt).1.length > 2 then
    .error ParseErr.tooManyDashes
  else
    .ok { long_opt_ := long_opt, short_opt_ := short_opt,
          metavar_ := toupper (split_leading_dashes long_opt).2 }

/-- Embeds `Argument::nargs(char)`.  The C++ validity table is
`std::array<char,5> valid_nargs = {'0', '1'}`, whose three unspecified
elements are value-initialized to NUL, so the membership test also accepts
the NUL character (which then always fails the action-consistency checks). -/
def Argument.nargs (a : Argument) (nargs_type : Char) : Except ParseErr Argument :=
  let valid_nargs : List Char := ['0', '1', Char.ofNat 0, Char.ofNat 0, Char.ofNat 0]
  if nargs_type ∉ valid_nargs then
    .error ParseErr.invalidNargs
  else if a.action_ = Action.STORE_FALSE ∧ nargs_type ≠ '0' then
    .error ParseErr.storeFalseNeedsZero
  else if a.action_ = Action.STORE_TRUE ∧ nargs_type ≠ '0' then
    .error ParseErr.storeTrueNeedsZero
  else if a.action_ = Action.STORE ∧ nargs_type ≠ '1' then
    .error ParseErr.storeNeedsOne
  else
    .ok { a with nargs_ := nargs_type }

/-- Embeds `Argument::action(Action)`: records the action and forces the
consistent arity through `nargs` (the C++ `throw` for an unrecognized enum
value is unreachable for the three enum constructors). -/
def Argument.action (a : Argument) (action_type : Action) : Except ParseErr Argument :=
  match action_type with
  | Action.STORE_FALSE => Argument.nargs { a with action_ := action_type } '0'
  | Action.STORE_TRUE => Argument.nargs { a with action_ := action_type } '0'
  | Action.STORE => Argument.nargs { a with action_ := action_type } '1'

/-- Embeds `Argument::metavar(std::string)`. -/
def Argument.metavar (a : Argument) (metavar_str : String) : Argument :=
  { a with metavar_ := metavar_str }

/-- Embeds `Argument::default_value(const std::string&)`. -/
def Argument.default_value (a : Argument) (value : String) : Argument :=
  { a with default_value_ := value, default_set_ := true }

/-- Embeds `ArgumentGroup` (name plus its appended arguments). -/
structure ArgumentGroup where
  name_ : String
  arguments_ : List Argument
deriving DecidableEq, Inhabited, Repr

/-- Embeds the `ArgumentParser` state relevant to parsing: the ordered
argument groups. -/
structure ArgumentParser where
  argument_groups_ : List ArgumentGroup
deriving DecidableEq, Inhabited, Repr

/-- All registered arguments in group-then-insertion order, the order in
which both loops `for (group : argument_groups()) for (arg : group.arguments())`
of `parse_args` visit them. -/
def ArgumentParser.allArguments (p : ArgumentParser) : List Argument :=
  (p.argument_groups_.map ArgumentGroup.arguments_).flatten

/-- Helper for stating dest-independence: forgets the bound destination. -/
def stripDest (a : Argument) : Argument :=
  { a with dest := none }

/-- The per-argument body of the reset phase of `parse_args`:
`if (arg->default_set()) arg->set_dest_to_default();`. -/
def resetArg (a : Argument) : Argument :=
  if a.default_set_ then a.set_dest_to_default else a

/-- The reset phase of `parse_args`, applied over all registered arguments in
group-then-insertion order. -/
def resetDefaults (args : List Argument) : List Argument :=
  args.map resetArg

/-- One `str_to_option_arg.insert` step of the lookup construction: empty
option strings are skipped (`if (opt.empty()) continue`), and an already
present key raises "Option string ... maps to multiple options".  Arguments
are identified by their index into the flattened registration order. -/
def insertOpt (m : List (String × Nat)) (opt : String) (idx : Nat) :
    Except ParseErr (List (String × Nat)) :=
  if opt = "" then .ok m
  else if (m.lookup opt).isSome then .error (ParseErr.optionMapsToMultiple opt)
  else .ok (m ++ [(opt, idx)])

/-- The lookup-construction loop of `parse_args`: positional arguments (in
order) go to the FIFO queue, option arguments insert their long then short
strings.  `Argument::positional`'s `assert(long_option().size() > 1)` is
modelled as `assertionFailure` when a registered long name has length ≤ 1. -/
def buildTablesAux (args : List Argument) (idx : Nat) (m : List (String × Nat))
    (ps : List Nat) : Except ParseErr (List (String × Nat) × List Nat) :=
  match args with
  | [] => .ok (m, ps)
  | a :: rest =>
    if a.long_opt_.length ≤ 1 then .error ParseErr.assertionFailure
    else if a.positional then buildTablesAux rest (idx + 1) m (ps ++ [idx])
    else
      match insertOpt m a.long_opt_ idx with
      | .error e => .error e
      | .ok m1 =>
        match insertOpt m1 a.short_opt_ idx with
        | .error e => .error e
        | .ok m2 => buildTablesAux rest (idx + 1) m2 ps

/-- `std::numeric_limits<size_t>::max()` on the 64-bit target. -/
def SIZE_MAX : Nat := 2 ^ 64 - 1

/-- The arity table of the STORE branch of `parse_args`, as
`(max_values_to_read, min_values_to_read)`; the final `assert(nargs == '+')`
of the chain is modelled as `assertionFailure` for any other character. -/
def nargsBounds (c : Char) : Except ParseErr (Nat × Nat) :=
  if c = '1' then .ok (1, 1)
  else if c = '?' then .ok (1, 0)
  else if c = '*' then .ok (SIZE_MAX, 0)
  else if c = '+' then .ok (SIZE_MAX, 1)
  else .error ParseErr.assertionFailure

/-- The value-reading loop of the STORE branch: reads up to `maxN` following
tokens; running past the end of the input throws "Missing expected argument",
an option-shaped token breaks out of the loop. -/
def collectValues (optTok : String) (maxN : Nat) (rest : List String) :
    Except ParseErr (List String) :=
  if maxN = 0 then .ok []
  else
    match rest with
    | [] => .error (ParseErr.missingExpectedArgument optTok)
    | t :: ts =>
      if is_argument t then .ok []
      else
        match collectValues optTok (maxN - 1) ts with
        | .error e => .error e
        | .ok vs => .ok (t :: vs)

/-- The STORE branch up to and including the minimum-count check: arity
bounds, the value-reading loop, then
`if (nargs_read < min_values_to_read) throw "Expected at least ..."`. -/
def collectAndCheck (tok : String) (c : Char) (rest : List String) :
    Except ParseErr (List String) :=
  match nargsBounds c with
  | .error e => .error e
  | .ok (maxV, minV) =>
    match collectValues tok maxV rest with
    | .error e => .error e
    | .ok values =>
      if values.length < minV then .error (ParseErr.expectedAtLeast minV tok)
      else .ok values

/-- The token-scanning loop of `parse_args` over the remaining tokens.
`args` is the mutable argument store (indices are shared with `m` and `ps`),
`specified` accumulates the indices of explicitly matched arguments.
Notes kept faithful to the source:
* in the STORE_TRUE / STORE_FALSE branches the local `value` ("true"/"false")
  is computed but never written anywhere, so no recursion-state changes
  beyond `specified`;
* in the positional branch the local `value = arg_strs[i]` is likewise dead;
* after a successful minimum check, only `nargs() == '1'` assigns the value
  (`set_dest_to_value_from_str(values[0])`); every other arity hits
  `assert(false) /* TODO: implement */`;
* `rest.drop values.length` mirrors `i += nargs_read`: the scan resumes
  after the consumed values.
The first argument after the lookup is a fuel bound on the number of loop
iterations, decreased once per matched token; `processTokens` below
instantiates it with the token count, which makes the zero-fuel case
(modelled as an abort) unreachable. -/
def processTokensF (m : List (String × Nat)) :
    Nat → List Argument → List Nat → List Nat → List String →
    Except ParseErr (List Argument × List Nat × List Nat)
  | _, args, ps, specified, [] => .ok (args, ps, specified)
  | 0, _, _, _, _ :: _ => .error ParseErr.assertionFailure
  | fuel + 1, args, ps, specified, tok :: rest =>
    match m.lookup tok with
    | some idx =>
      match (args.getD idx default).action_ with
      | Action.STORE_TRUE => processTokensF m fuel args ps (specified ++ [idx]) rest
      | Action.STORE_FALSE => processTokensF m fuel args ps (specified ++ [idx]) rest
      | Action.STORE =>
        match collectAndCheck tok (args.getD idx default).nargs_ rest with
        | .error e => .error e
        | .ok values =>
          if (args.getD idx default).nargs_ = '1' then
            if values.length = 1 then
              processTokensF m fuel
                (args.set idx
                  ((args.getD idx default).set_dest_to_value_from_str (values.headD "")))
                ps (specified ++ [idx]) (rest.drop values.length)
            else .error ParseErr.assertionFailure
          else .error ParseErr.assertionFailure
    | none =>
      match ps with
      | [] => .error (ParseErr.unexpectedArgument tok)
      | pidx :: psRest => processTokensF m fuel args psRest (specified ++ [pidx]) rest

/-- The token-scanning loop of `parse_args` over the remaining tokens,
instantiating the iteration bound with the token count (each iteration of
the C++ `for` loop consumes at least one token, so the bound is never
exhausted; see `processTokensF`). -/
def processTokens (m : List (String × Nat)) (args : List Argument) (ps : List Nat)
    (specified : List Nat) (tokens : List String) :
    Except ParseErr (List Argument × List Nat × List Nat) :=
  processTokensF m tokens.length args ps specified tokens

/-- `parse_args` after the reset phase: lookup construction, the token scan,
then the remaining-positionals check (which throws on the first remaining
positional, naming its long option). -/
def parseFromReset (args : List Argument) (arg_strs : List String) :
    Except ParseErr (List Argument × List Nat) :=
  match buildTablesAux args 0 [] [] with
  | .error e => .error e
  | .ok (m, ps) =>
    match processTokens m args ps [] arg_strs with
    | .error e => .error e
    | .ok (args2, psRem, specified) =>
      match psRem with
      | [] => .ok (args2, specified)
      | r :: _ =>
        .error (ParseErr.missingRequiredPositional ((args2.getD r default).long_opt_))

/-- `ArgumentParser::parse_args(std::vector<std::string>)` over a flattened
argument store: reset defaults first, then everything else.  Returns the
final argument store together with the indices of the specified arguments. -/
def parseArgsList (args : List Argument) (arg_strs : List String) :
    Except ParseErr (List Argument × List Nat) :=
  parseFromReset (resetDefaults args) arg_strs

/-- Embeds `ArgumentParser::parse_args(std::vector<std::string>)`. -/
def ArgumentParser.parse_args (p : ArgumentParser) (arg_strs : List String) :
    Except ParseErr (List Argument × List Nat) :=
  parseArgsList p.allArguments arg_strs

/-- An Argument claims an option string `s` when it is non-positional and
registers `s` as its long or short form (empty strings are never inserted
into the lookup). -/
def claimsOpt (a : Argument) (s : String) : Prop :=
  a.positional = false ∧ s ≠ "" ∧ (a.long_opt_ = s ∨ a.short_opt_ = s)

/-- A STORE_TRUE boolean flag `--flag`, used by concrete theorems. -/
def flagArg : Argument :=
  { long_opt_ := "--flag", short_opt_ := "", metavar_ := "FLAG",
    action_ := Action.STORE_TRUE, nargs_ := '0' }

/-- A STORE_FALSE boolean flag `--noflag`, used by concrete theorems. -/
def noflagArg : Argument :=
  { long_opt_ := "--noflag", short_opt_ := "", metavar_ := "NOFLAG",
    action_ := Action.STORE_FALSE, nargs_ := '0' }

/-- A parser registering the two boolean flags. -/
def flagParser : ArgumentParser :=
  ⟨[⟨"arguments:", [flagArg, noflagArg]⟩]⟩

/-- A positional argument `alpha`, used by concrete theorems. -/
def alphaArg : Argument :=
  { long_opt_ := "alpha", short_opt_ := "", metavar_ := "ALPHA" }

/-- A positional argument `beta`, used by concrete theorems. -/
def betaArg : Argument :=
  { long_opt_ := "beta", short_opt_ := "", metavar_ := "BETA" }

/-- A parser registering the positionals `alpha` then `beta`. -/
def posParser : ArgumentParser :=
  ⟨[⟨"arguments:", [alphaArg, betaArg]⟩]⟩

/-- A STORE option `--foo` of arity exactly-one, used by concrete theorems. -/
def fooStoreArg : Argument :=
  { long_opt_ := "--foo", short_opt_ := "", metavar_ := "FOO" }

/-- A parser registering the single STORE option `--foo`. -/
def fooParser : ArgumentParser :=
  ⟨[⟨"arguments:", [fooStoreArg]⟩]⟩

/-- A second, distinct argument also claiming the option string `--foo`. -/
def fooCloneArg : Argument :=
  { long_opt_ := "--foo", short_opt_ := "", metavar_ := "FOO2" }

/-- A parser in which two different Arguments claim `--foo`. -/
def dupParser : ArgumentParser :=
  ⟨[⟨"arguments:", [fooStoreArg, fooCloneArg]⟩]⟩

/-- A STORE option whose arity was (hypothetically) set to zero-or-one; this
configuration is not reachable through `Argument::nargs` but exercises the
multi-arity paths of the scanning loop. -/
def qArg : Argument :=
  { long_opt_ := "--opt", short_opt_ := "", metavar_ := "OPT", nargs_ := '?' }

/-- A parser registering the zero-or-one-arity option. -/
def qParser : ArgumentParser :=
  ⟨[⟨"arguments:", [qArg]⟩]⟩

/-- A positional argument `gamma`, used by concrete theorems. -/
def gammaArg : Argument :=
  { long_opt_ := "gamma", short_opt_ := "", metavar_ := "GAMMA" }

/-- A parser registering only the positional `gamma`. -/
def gammaParser : ArgumentParser :=
  ⟨[⟨"arguments:", [gammaArg]⟩]⟩

/-- An option with a configured default and a stale destination, used by
concrete theorems about the reset phase. -/
def defaultedArg : Argument :=
  { long_opt_ := "--num", short_opt_ := "", metavar_ := "NUM",
    default_value_ := "7", default_set_ := true, dest := some "stale" }

/-! ### Helper lemmas -/

/-- Mapping commutes with indexed access below the length. -/
theorem listGetDMapLt (f : Argument → Argument) (l : List Argument) (i : Nat)
    (d : Argument) (h : i < l.length) : (l.map f).getD i d = f (l.getD i d) := by
  induction l generalizing i with
  | nil => simp at h
  | cons a t ih =>
    cases i with
    | zero => rfl
    | succ n => exact ih n (Nat.lt_of_succ_lt_succ h)

/-- The reset step does not change the long option string. -/
theorem resetArg_long (a : Argument) : (resetArg a).long_opt_ = a.long_opt_ := by
  unfold resetArg Argument.set_dest_to_default
  split <;> rfl

/-- The reset step does not change the short option string. -/
theorem resetArg_short (a : Argument) : (resetArg a).short_opt_ = a.short_opt_ := by
  unfold resetArg Argument.set_dest_to_default
  split <;> rfl

/-- The reset step does not change positionality. -/
theorem resetArg_positional (a : Argument) : (resetArg a).positional = a.positional := by
  unfold resetArg Argument.set_dest_to_default Argument.positional
  split <;> rfl

/-- The reset step does not change which option strings an Argument claims. -/
theorem claimsOpt_resetArg (a : Argument) (s : String) :
    claimsOpt (resetArg a) s ↔ claimsOpt a s := by
  unfold claimsOpt
  rw [resetArg_long, resetArg_short, resetArg_positional]

/-- A key found in an association list is still found after appending. -/
theorem lookup_isSome_append (m l : List (String × Nat)) (s : String)
    (h : (m.lookup s).isSome = true) : ((m ++ l).lookup s).isSome = true := by
  induction m with
  | nil => simp [List.lookup] at h
  | cons kv m ih =>
    obtain ⟨k, v⟩ := kv
    cases h2 : (s == k) with
    | true => simp only [List.cons_append, List.lookup, h2, Option.isSome_some]
    | false =>
      simp only [List.lookup, h2] at h
      simp only [List.cons_append, List.lookup, h2]
      exact ih h

/-- A key just appended to an association list is found. -/
theorem lookup_isSome_append_self (m : List (String × Nat)) (s : String) (v : Nat) :
    ((m ++ [(s, v)]).lookup s).isSome = true := by
  induction m with
  | nil => simp [List.lookup]
  | cons kv m ih =>
    obtain ⟨k, w⟩ := kv
    cases h2 : (s == k) with
    | true => simp only [List.cons_append, List.lookup, h2, Option.isSome_some]
    | false =>
      simp only [List.cons_append, List.lookup, h2]
      exact ih

/-- A successful insert preserves every key already present. -/
theorem insertOpt_mono (m m2 : List (String × Nat)) (opt : String) (idx : Nat)
    (s : String) (hins : insertOpt m opt idx = .ok m2)
    (h : (m.lookup s).isSome = true) : (m2.lookup s).isSome = true := by
  unfold insertOpt at hins
  by_cases h1 : opt = ""
  · rw [if_pos h1] at hins
    injection hins with h3
    subst h3; exact h
  · by_cases h2 : (m.lookup opt).isSome = true
    · rw [if_neg h1, if_pos h2] at hins
      exact Except.noConfusion hins
    · rw [if_neg h1, if_neg h2] at hins
      injection hins with h3
      subst h3; exact lookup_isSome_append m _ s h

/-- After successfully inserting a nonempty option string, it is present. -/
theorem insertOpt_self (m m2 : List (String × Nat)) (opt : String) (idx : Nat)
    (hopt : opt ≠ "") (hins : insertOpt m opt idx = .ok m2) :
    (m2.lookup opt).isSome = true := by
  unfold insertOpt at hins
  rw [if_neg hopt] at hins
  by_cases h2 : (m.lookup opt).isSome = true
  · rw [if_pos h2] at hins
    exact Except.noConfusion hins
  · rw [if_neg h2] at hins
    injection hins with h3
    subst h3; exact lookup_isSome_append_self m opt idx

/-- One-step unfolding of the token-scanning loop on a nonempty token list
with remaining fuel, stated by hand for rewriting. -/
theorem processTokensF_succ (m : List (String × Nat)) (fuel : Nat)
    (args : List Argument) (ps specified : List Nat) (tok : String)
    (rest : List String) :
    processTokensF m (fuel + 1) args ps specified (tok :: rest) =
      (match m.lookup tok with
       | some idx =>
         match (args.getD idx default).action_ with
         | Action.STORE_TRUE => processTokensF m fuel args ps (specified ++ [idx]) rest
         | Action.STORE_FALSE => processTokensF m fuel args ps (specified ++ [idx]) rest
         | Action.STORE =>
           match collectAndCheck tok (args.getD idx default).nargs_ rest with
           | .error e => .error e
           | .ok values =>
             if (args.getD idx default).nargs_ = '1' then
               if values.length = 1 then
                 processTokensF m fuel
                   (args.set idx
                     ((args.getD idx default).set_dest_to_value_from_str (values.headD "")))
                   ps (specified ++ [idx]) (rest.drop values.length)
               else .error ParseErr.assertionFailure
             else .error ParseErr.assertionFailure
       | none =>
         match ps with
         | [] => .error (ParseErr.unexpectedArgument tok)
         | pidx :: psRest => processTokensF m fuel args psRest (specified ++ [pidx]) rest) :=
  rfl

/-- The token-scanning loop is insensitive to the fuel bound as long as it
covers the token count (each iteration consumes at least one token). -/
theorem processTokensF_fuel (m : List (String × Nat)) (f1 : Nat) :
    ∀ (f2 : Nat) (args : List Argument) (ps specified : List Nat)
      (tokens : List String), tokens.length ≤ f1 → tokens.length ≤ f2 →
      processTokensF m f1 args ps specified tokens =
        processTokensF m f2 args ps specified tokens := by
  induction f1 using Nat.strong_induction_on with
  | _ f1 ih =>
    intro f2 args ps specified tokens h1 h2
    match tokens with
    | [] =>
      cases f1 <;> cases f2 <;> rfl
    | tok :: rest =>
      simp only [List.length_cons] at h1 h2
      cases f1 with
      | zero => omega
      | succ g1 =>
        cases f2 with
        | zero => omega
        | succ g2 =>
          have hr1 : rest.length ≤ g1 := by omega
          have hr2 : rest.length ≤ g2 := by omega
          cases hl : m.lookup tok with
          | none =>
            cases ps with
            | nil => simp only [processTokensF_succ, hl]
            | cons pidx psRest =>
              simp only [processTokensF_succ, hl]
              exact ih g1 (Nat.lt_succ_self g1) g2 args psRest (specified ++ [pidx])
                rest hr1 hr2
          | some idx =>
            cases ha : (args.getD idx default).action_ with
            | STORE_TRUE =>
              simp only [processTokensF_succ, hl, ha]
              exact ih g1 (Nat.lt_succ_self g1) g2 args ps (specified ++ [idx]) rest hr1 hr2
            | STORE_FALSE =>
              simp only [processTokensF_succ, hl, ha]
              exact ih g1 (Nat.lt_succ_self g1) g2 args ps (specified ++ [idx]) rest hr1 hr2
            | STORE =>
              cases hcc : collectAndCheck tok (args.getD idx default).nargs_ rest with
              | error e => simp only [processTokensF_succ, hl, ha, hcc]
              | ok values =>
                by_cases hn : (args.getD idx default).nargs_ = '1'
                · by_cases hv : values.length = 1
                  · simp only [processTokensF_succ, hl, ha, hcc, if_pos hn, if_pos hv]
                    have hd : (rest.drop values.length).length ≤ rest.length := by
                      simp [List.length_drop]
                    exact ih g1 (Nat.lt_succ_self g1) g2 _ ps (specified ++ [idx]) _
                      (le_trans hd hr1) (le_trans hd hr2)
                  · simp only [processTokensF_succ, hl, ha, hcc, if_pos hn, if_neg hv]
                · simp only [processTokensF_succ, hl, ha, hcc, if_neg hn]

/-- The value-reading loop reads nothing when no more values may be read. -/
theorem collectValues_zero (optTok : String) (rest : List String) :
    collectValues optTok 0 rest = .ok [] := by
  cases rest <;> rfl

/-- One-step unfolding of the value-reading loop at the end of the input. -/
theorem collectValues_nil (optTok : String) (maxN : Nat) :
    collectValues optTok maxN [] =
      (if maxN = 0 then .ok []
       else .error (ParseErr.missingExpectedArgument optTok)) :=
  rfl

/-- One-step unfolding of the value-reading loop on a remaining token. -/
theorem collectValues_cons (optTok : String) (maxN : Nat) (t : String)
    (ts : List String) :
    collectValues optTok maxN (t :: ts) =
      (if maxN = 0 then .ok []
       else if is_argument t then .ok []
       else
         match collectValues optTok (maxN - 1) ts with
         | .error e => .error e
         | .ok vs => .ok (t :: vs)) :=
  rfl

/-- Closed form of the value-reading loop: writing `pre` for the maximal
non-option-shaped prefix of the remaining tokens, the loop returns the first
`maxN` tokens of `pre` when `pre` is at least that long, raises "Missing
expected argument" when it runs off the end of the input (exactly when `pre`
is the whole remainder), and otherwise stops at the first option-shaped token
with the values read so far. -/
theorem collectValues_spec (tok : String) (rest : List String) :
    ∀ maxN : Nat,
      collectValues tok maxN rest =
        (if maxN ≤ (rest.takeWhile (fun s => !(is_argument s))).length then
          .ok ((rest.takeWhile (fun s => !(is_argument s))).take maxN)
        else if rest.takeWhile (fun s => !(is_argument s)) = rest then
          .error (ParseErr.missingExpectedArgument tok)
        else
          .ok (rest.takeWhile (fun s => !(is_argument s)))) := by
  induction rest with
  | nil =>
    intro maxN
    rw [collectValues_nil]
    by_cases h0 : maxN = 0 <;> simp [h0, Nat.le_zero]
  | cons t ts ih =>
    intro maxN
    rw [collectValues_cons]
    by_cases h0 : maxN = 0
    · subst h0
      simp
    · rw [if_neg h0]
      by_cases hA : is_argument t = true
      · rw [if_pos hA]
        have htw : (t :: ts).takeWhile (fun s => !(is_argument s)) = [] := by
          simp [List.takeWhile_cons, hA]
        rw [htw]
        rw [if_neg (by simpa [Nat.le_zero] using h0), if_neg (by simp)]
      · rw [if_neg hA]
        have hA2 : is_argument t = false := by
          cases hq : is_argument t
          · rfl
          · exact absurd hq hA
        have htw : (t :: ts).takeWhile (fun s => !(is_argument s)) =
            t :: ts.takeWhile (fun s => !(is_argument s)) := by
          simp [List.takeWhile_cons, hA2]
        rw [ih (maxN - 1), htw]
        by_cases h1 : maxN - 1 ≤ (ts.takeWhile (fun s => !(is_argument s))).length
        · rw [if_pos h1,
            if_pos (show maxN ≤ (t :: ts.takeWhile (fun s => !(is_argument s))).length by
              simp only [List.length_cons]; omega)]
          obtain ⟨k, rfl⟩ : ∃ k, maxN = k + 1 := ⟨maxN - 1, by omega⟩
          simp [List.take_succ_cons]
        · rw [if_neg h1,
            if_neg (show ¬ maxN ≤ (t :: ts.takeWhile (fun s => !(is_argument s))).length by
              simp only [List.length_cons]; omega)]
          by_cases h2 : ts.takeWhile (fun s => !(is_argument s)) = ts
          · rw [if_pos h2, if_pos (by rw [h2])]
          · rw [if_neg h2, if_neg (by simp [h2])]

/-- Case analysis of the STORE branch's collection-plus-minimum-check for any
arity with bounds `(maxV, minV)`: success with a full read when the
non-option prefix covers the maximum, "Missing expected argument" when
end-of-input interrupts the read, and at an option-shaped stop either the
"Expected at least" error (below the minimum) or success. -/
theorem collectAndCheck_cases (tok : String) (c : Char) (rest : List String)
    (maxV minV : Nat) (hb : nargsBounds c = .ok (maxV, minV)) (hmv : minV ≤ maxV) :
    (maxV ≤ (rest.takeWhile (fun s => !(is_argument s))).length →
      collectAndCheck tok c rest =
        .ok ((rest.takeWhile (fun s => !(is_argument s))).take maxV)) ∧
    ((rest.takeWhile (fun s => !(is_argument s))).length < maxV →
      rest.takeWhile (fun s => !(is_argument s)) = rest →
      collectAndCheck tok c rest = .error (ParseErr.missingExpectedArgument tok)) ∧
    ((rest.takeWhile (fun s => !(is_argument s))).length < maxV →
      rest.takeWhile (fun s => !(is_argument s)) ≠ rest →
      (rest.takeWhile (fun s => !(is_argument s))).length < minV →
      collectAndCheck tok c rest = .error (ParseErr.expectedAtLeast minV tok)) ∧
    ((rest.takeWhile (fun s => !(is_argument s))).length < maxV →
      rest.takeWhile (fun s => !(is_argument s)) ≠ rest →
      minV ≤ (rest.takeWhile (fun s => !(is_argument s))).length →
      collectAndCheck tok c rest =
        .ok (rest.takeWhile (fun s => !(is_argument s)))) := by
  refine ⟨?_, ?_, ?_, ?_⟩
  · intro hA
    have hcol : collectValues tok maxV rest =
        .ok ((rest.takeWhile (fun s => !(is_argument s))).take maxV) := by
      rw [collectValues_spec, if_pos hA]
    have hlen : ((rest.takeWhile (fun s => !(is_argument s))).take maxV).length = maxV := by
      simp only [List.length_take]
      omega
    simp only [collectAndCheck, hb, hcol]
    rw [if_neg (by omega)]
  · intro hA hB
    have hcol : collectValues tok maxV rest =
        .error (ParseErr.missingExpectedArgument tok) := by
      rw [collectValues_spec, if_neg (by omega), if_pos hB]
    simp only [collectAndCheck, hb, hcol]
  · intro hA hB hC
    have hcol : collectValues tok maxV rest =
        .ok (rest.takeWhile (fun s => !(is_argument s))) := by
      rw [collectValues_spec, if_neg (by omega), if_neg hB]
    simp only [collectAndCheck, hb, hcol]
    rw [if_pos hC]
  · intro hA hB hC
    have hcol : collectValues tok maxV rest =
        .ok (rest.takeWhile (fun s => !(is_argument s))) := by
      rw [collectValues_spec, if_neg (by omega), if_neg hB]
    simp only [collectAndCheck, hb, hcol]
    rw [if_neg (by omega)]

/-- Inserting a nonempty option string that is already present raises the
"maps to multiple options" error. -/
theorem insertOpt_present_error (m : List (String × Nat)) (opt : String) (idx : Nat)
    (hopt : opt ≠ "") (h : (m.lookup opt).isSome = true) :
    insertOpt m opt idx = .error (ParseErr.optionMapsToMultiple opt) := by
  unfold insertOpt
  rw [if_neg hopt, if_pos h]

/-! ### Claim theorems -/

/-- Claim C3: the option-token classifier returns true iff the string has
exactly 2 characters with `s[0] == '-'` and `s[1] != '-'`, or more than 2
characters with `s[0] == '-'`, `s[1] == '-'` and `s[2] != '-'`; in
particular "-a" and "--ab" are option-shaped while "-", "--", "---a" and
plain text are not. -/
theorem C3_option_token_classification :
    (∀ s : String, is_argument s = true ↔
      ((s.data.length = 2 ∧ s.data.get? 0 = some '-' ∧ s.data.get? 1 ≠ some '-') ∨
       (2 < s.data.length ∧ s.data.get? 0 = some '-' ∧ s.data.get? 1 = some '-' ∧
         s.data.get? 2 ≠ some '-'))) ∧
    is_argument "-a" = true ∧ is_argument "--ab" = true ∧
    is_argument "-" = false ∧ is_argument "--" = false ∧
    is_argument "---a" = false ∧ is_argument "plain" = false := by
  refine ⟨fun s => ?_, by decide, by decide, by decide, by decide, by decide, by decide⟩
  unfold is_argument
  split_ifs with h1 h2
  · simp only [true_iff]
    exact Or.inl h1
  · simp only [true_iff]
    exact Or.inr h2
  · simp only [Bool.false_eq_true, false_iff]
    rintro (h | h)
    · exact h1 h
    · exact h2 h

/-- Claim C1 (code bug): a matched STORE_TRUE / STORE_FALSE option consumes
no token beyond the option itself and is recorded as specified, but its
destination is never bound to "true" / "false": the scan leaves both
destinations untouched (`none`), because the computed local `value` is
never written anywhere in the source. -/
theorem C1_bool_flag_dest_not_bound :
    flagParser.parse_args ["--flag", "--noflag"] = .ok ([flagArg, noflagArg], [0, 1]) ∧
    flagArg.dest = none ∧ noflagArg.dest = none ∧
    flagArg.dest ≠ some "true" ∧ noflagArg.dest ≠ some "false" :=
  ⟨rfl, rfl, rfl, by decide, by decide⟩

/-- Claim C2 (code bug): with positionals `alpha` then `beta` registered in
that order and input ["x", "y"], the scan pops them in order and records
both as specified (indices [0, 1]), but neither destination receives its
token: the source discards the popped value (dead local `value`). -/
theorem C2_positional_dest_not_bound :
    posParser.parse_args ["x", "y"] = .ok ([alphaArg, betaArg], [0, 1]) ∧
    alphaArg.dest = none ∧ betaArg.dest = none ∧
    alphaArg.dest ≠ some "x" ∧ betaArg.dest ≠ some "y" :=
  ⟨rfl, rfl, rfl, by decide, by decide⟩

/-- Claim C9, counterexample: the Argument constructed from long name
"--foo" gets metavar "FOO", which is not the upper-casing "--FOO" of the
long name: the leading dashes are stripped first. -/
theorem C9_counterexample_metavar_keeps_no_dashes :
    Argument.construct "--foo" "" =
      .ok { long_opt_ := "--foo", short_opt_ := "", metavar_ := "FOO" } ∧
    toupper "--foo" = "--FOO" ∧ ("FOO" : String) ≠ "--FOO" :=
  ⟨rfl, rfl, by decide⟩

/-- Claim C9 as amended: every successfully constructed Argument (metavar
never explicitly set) has as metavar the upper-cased long name with its
leading dashes stripped. -/
theorem C9_metavar_default (long_opt short_opt : String) (a : Argument)
    (h : Argument.construct long_opt short_opt = .ok a) :
    a.metavar_ = toupper (split_leading_dashes long_opt).2 := by
  unfold Argument.construct at h
  split_ifs at h
  injection h with h2
  subst h2
  rfl

/-- Witness for C9_metavar_default at long name "--foo". -/
theorem C9_metavar_default_witness :
    ({ long_opt_ := "--foo", short_opt_ := "", metavar_ := "FOO" } : Argument).metavar_ =
      toupper (split_leading_dashes "--foo").2 :=
  C9_metavar_default "--foo" ""
    { long_opt_ := "--foo", short_opt_ := "", metavar_ := "FOO" } (by rfl)

/-- Claim C10: `Argument::nargs` rejects every character other than '0' and
'1' (including '?', '*', '+') with a parsing error, leaving the stored arity
unchanged (the mutator returns no updated Argument); '0' and '1' themselves
are accepted under the matching actions.  Characters outside the validity
table fail with the invalid-nargs error; the NUL character, accidentally
present in the value-initialized `std::array<char,5>`, passes the table but
then always fails the action-consistency checks. -/
theorem C10_nargs_mutator (a : Argument) (c : Char) (h0 : c ≠ '0') (h1 : c ≠ '1') :
    (∃ e, Argument.nargs a c = Except.error e) ∧
    Argument.nargs flagArg '0' = .ok flagArg ∧
    Argument.nargs fooStoreArg '1' = .ok fooStoreArg := by
  refine ⟨?_, rfl, rfl⟩
  by_cases hm : c ∈ ['0', '1', Char.ofNat 0, Char.ofNat 0, Char.ofNat 0]
  · have hc : c = Char.ofNat 0 := by
      simp only [List.mem_cons, List.not_mem_nil, or_false] at hm
      rcases hm with h | h | h | h | h
      · exact absurd h h0
      · exact absurd h h1
      all_goals exact h
    subst hc
    obtain ⟨l, s, hp, n, mv, act, r, dv, ds, de⟩ := a
    cases act
    · exact ⟨ParseErr.storeNeedsOne, rfl⟩
    · exact ⟨ParseErr.storeTrueNeedsZero, rfl⟩
    · exact ⟨ParseErr.storeFalseNeedsZero, rfl⟩
  · refine ⟨ParseErr.invalidNargs, ?_⟩
    unfold Argument.nargs
    exact if_pos hm

/-- Witness for C10_nargs_mutator at the one-or-more arity code. -/
theorem C10_nargs_mutator_witness :
    (∃ e, Argument.nargs flagArg '+' = Except.error e) ∧
    Argument.nargs flagArg '0' = .ok flagArg ∧
    Argument.nargs fooStoreArg '1' = .ok fooStoreArg :=
  C10_nargs_mutator flagArg '+' (by decide) (by decide)

/-- Claim C6: when the scan matches a STORE option of arity exactly-one, a
missing following token raises the "missing expected argument" error carrying
the option token, while a following non-option-shaped token is consumed as
the value (the destination is bound to it) and the scan resumes after it. -/
theorem C6_store_exactly_one (m : List (String × Nat)) (args : List Argument)
    (ps specified : List Nat) (tok v : String) (rest : List String) (idx : Nat)
    (hfind : m.lookup tok = some idx)
    (haction : (args.getD idx default).action_ = Action.STORE)
    (hnargs : (args.getD idx default).nargs_ = '1')
    (hv : is_argument v = false) :
    processTokens m args ps specified [tok] =
      .error (ParseErr.missingExpectedArgument tok) ∧
    processTokens m args ps specified (tok :: v :: rest) =
      processTokens m
        (args.set idx ((args.getD idx default).set_dest_to_value_from_str v))
        ps (specified ++ [idx]) rest := by
  have haction2 := haction
  have hnargs2 := hnargs
  simp only [List.getD_eq_getElem?_getD] at haction2 hnargs2
  constructor
  · show processTokensF m 1 args ps specified [tok] = _
    rw [processTokensF_succ]
    simp [hfind, haction, haction2, hnargs, hnargs2, collectAndCheck, nargsBounds,
      collectValues, collectValues_zero]
  · show processTokensF m (rest.length + 1 + 1) args ps specified (tok :: v :: rest) =
      processTokensF m rest.length
        (args.set idx ((args.getD idx default).set_dest_to_value_from_str v)) ps
        (specified ++ [idx]) rest
    rw [processTokensF_succ]
    simp [hfind, haction, haction2, hnargs, hnargs2, hv, collectAndCheck, nargsBounds,
      collectValues, collectValues_zero]
    exact processTokensF_fuel m (rest.length + 1) rest.length _ ps _ rest
      (by omega) (le_refl _)

/-- Witness for C6_store_exactly_one on a one-option lookup. -/
theorem C6_store_exactly_one_witness :
    (processTokens [("--foo", 0)] [fooStoreArg] [] [] ["--foo"] =
       .error (ParseErr.missingExpectedArgument "--foo") ∧
     processTokens [("--foo", 0)] [fooStoreArg] [] [] ["--foo", "v"] =
       processTokens [("--foo", 0)]
         ([fooStoreArg].set 0 (fooStoreArg.set_dest_to_value_from_str "v"))
         [] [0] []) :=
  C6_store_exactly_one [("--foo", 0)] [fooStoreArg] [] [] "--foo" "v" [] 0
    rfl rfl rfl (by decide)

/-- Claim C8: when the token scan completes without error but positional
Arguments remain in the queue, parse_args raises the "missing required
positional argument" error naming (the long option of) the first remaining
positional. -/
theorem C8_missing_positional (args : List Argument) (tokens : List String)
    (m : List (String × Nat)) (ps : List Nat)
    (hbt : buildTablesAux (resetDefaults args) 0 [] [] = .ok (m, ps))
    (args2 : List Argument) (r : Nat) (psRest specified : List Nat)
    (hscan : processTokens m (resetDefaults args) ps [] tokens =
      .ok (args2, r :: psRest, specified)) :
    parseArgsList args tokens =
      .error (ParseErr.missingRequiredPositional ((args2.getD r default).long_opt_)) := by
  unfold parseArgsList parseFromReset
  simp only [hbt, hscan]

/-- Witness for C8_missing_positional: one registered positional `gamma` and
an empty input list raise the error naming it. -/
theorem C8_missing_positional_witness :
    parseArgsList [gammaArg] [] = .error (ParseErr.missingRequiredPositional "gamma") :=
  C8_missing_positional [gammaArg] [] [] [0] rfl [gammaArg] 0 [] [] rfl

/-- Two Arguments equal up to their destinations reset identically once a
default is configured. -/
theorem resetArgCongr (a b : Argument) (hab : stripDest a = stripDest b)
    (ha : a.default_set_ = true) : resetArg a = resetArg b := by
  obtain ⟨al, as2, ah, an, am, aa, ar, ad, ads, ade⟩ := a
  obtain ⟨bl, bs, bh, bn, bm, ba, br, bd, bds, bde⟩ := b
  simp only [stripDest, Argument.mk.injEq] at hab
  simp only at ha
  obtain ⟨h1, h2, h3, h4, h5, h6, h7, h8, h9, -⟩ := hab
  subst h1 h2 h3 h4 h5 h6 h7 h8 h9
  simp [resetArg, ha, Argument.set_dest_to_default]

/-- Claim C5: the reset phase runs before any token is examined and binds
every default-configured Argument's destination to its default (positionally,
preserving group-then-insertion order), and it does so independently of
whatever destination state an earlier invocation left behind. -/
theorem C5_defaults_reset (args args2 : List Argument) (tokens : List String)
    (i : Nat) (h : i < args.length)
    (hd : (args.getD i default).default_set_ = true)
    (hsim : args.map stripDest = args2.map stripDest) :
    ((resetDefaults args).getD i default).dest =
      some ((args.getD i default).default_value_) ∧
    parseArgsList args tokens = parseFromReset (resetDefaults args) tokens ∧
    (resetDefaults args2).getD i default = (resetDefaults args).getD i default := by
  have hlen2 : args.length = args2.length := by
    have hc := congrArg List.length hsim
    simpa using hc
  refine ⟨?_, rfl, ?_⟩
  · unfold resetDefaults
    rw [listGetDMapLt resetArg args i default h]
    unfold resetArg
    rw [if_pos hd]
    rfl
  · unfold resetDefaults
    rw [listGetDMapLt resetArg args i default h,
      listGetDMapLt resetArg args2 i default (hlen2 ▸ h)]
    have e1 := listGetDMapLt stripDest args i default h
    have e2 := listGetDMapLt stripDest args2 i default (hlen2 ▸ h)
    have hpt : stripDest (args.getD i default) = stripDest (args2.getD i default) := by
      rw [← e1, ← e2, hsim]
    exact (resetArgCongr (args.getD i default) (args2.getD i default) hpt hd).symm

/-- Witness for C5_defaults_reset: a stale destination is overwritten by the
default "7" before scanning, identically for a dest-stripped copy. -/
theorem C5_defaults_reset_witness :
    ((resetDefaults [defaultedArg]).getD 0 default).dest =
      some (([defaultedArg].getD 0 default).default_value_) ∧
    parseArgsList [defaultedArg] [] = parseFromReset (resetDefaults [defaultedArg]) [] ∧
    (resetDefaults [stripDest defaultedArg]).getD 0 default =
      (resetDefaults [defaultedArg]).getD 0 default :=
  C5_defaults_reset [defaultedArg] [stripDest defaultedArg] [] 0 (by decide) rfl rfl

/-- Claim C7, counterexample: for a STORE option `--opt` of arity
zero-or-one (minimum 0), an input ending right after the option token makes
parse_args raise "Missing expected argument" — end-of-input during
collection is an error even though the arity's minimum is already met, and
the error is not the "expected at least N" one the claim reserves for
minimum violations. -/
theorem C7_counterexample_end_of_input_errors :
    qParser.parse_args ["--opt"] = .error (ParseErr.missingExpectedArgument "--opt") ∧
    qArg.nargs_ = '?' ∧ nargsBounds '?' = .ok (1, 0) ∧
    ParseErr.missingExpectedArgument "--opt" ≠ ParseErr.expectedAtLeast 0 "--opt" :=
  ⟨rfl, rfl, rfl, by decide⟩

/-- Claim C7 as amended: for arity codes '?', '*', '+' the scan collects the
maximal run of consecutive non-option-shaped tokens up to the arity maximum;
it stops early without error only at an option-shaped token (raising
"expected at least N" there exactly when fewer than the minimum were
collected), while reaching end-of-input before the maximum always raises
"Missing expected argument" naming the option, even when the minimum is
already met. -/
theorem C7_multi_arity_collection (c : Char) (tok : String) (rest : List String)
    (hc : c = '?' ∨ c = '*' ∨ c = '+') :
    ∃ maxV minV, nargsBounds c = .ok (maxV, minV) ∧
      maxV = (if c = '?' then 1 else SIZE_MAX) ∧
      minV = (if c = '+' then 1 else 0) ∧
      ((maxV ≤ (rest.takeWhile (fun s => !(is_argument s))).length →
        collectAndCheck tok c rest =
          .ok ((rest.takeWhile (fun s => !(is_argument s))).take maxV)) ∧
      ((rest.takeWhile (fun s => !(is_argument s))).length < maxV →
        rest.takeWhile (fun s => !(is_argument s)) = rest →
        collectAndCheck tok c rest = .error (ParseErr.missingExpectedArgument tok)) ∧
      ((rest.takeWhile (fun s => !(is_argument s))).length < maxV →
        rest.takeWhile (fun s => !(is_argument s)) ≠ rest →
        (rest.takeWhile (fun s => !(is_argument s))).length < minV →
        collectAndCheck tok c rest = .error (ParseErr.expectedAtLeast minV tok)) ∧
      ((rest.takeWhile (fun s => !(is_argument s))).length < maxV →
        rest.takeWhile (fun s => !(is_argument s)) ≠ rest →
        minV ≤ (rest.takeWhile (fun s => !(is_argument s))).length →
        collectAndCheck tok c rest =
          .ok (rest.takeWhile (fun s => !(is_argument s))))) := by
  rcases hc with rfl | rfl | rfl
  · exact ⟨1, 0, rfl, rfl, rfl, collectAndCheck_cases tok '?' rest 1 0 rfl (by omega)⟩
  · exact ⟨SIZE_MAX, 0, rfl, rfl, rfl,
      collectAndCheck_cases tok '*' rest SIZE_MAX 0 rfl (by omega)⟩
  · exact ⟨SIZE_MAX, 1, rfl, rfl, rfl,
      collectAndCheck_cases tok '+' rest SIZE_MAX 1 rfl (by norm_num [SIZE_MAX])⟩

/-- Witness for C7_multi_arity_collection at arity '+' with an option-shaped
next token. -/
theorem C7_multi_arity_collection_witness :
    ∃ maxV minV, nargsBounds '+' = .ok (maxV, minV) ∧
      maxV = (if '+' = '?' then 1 else SIZE_MAX) ∧
      minV = (if '+' = '+' then 1 else 0) ∧
      ((maxV ≤ (["-x"].takeWhile (fun s => !(is_argument s))).length →
        collectAndCheck "--foo" '+' ["-x"] =
          .ok ((["-x"].takeWhile (fun s => !(is_argument s))).take maxV)) ∧
      ((["-x"].takeWhile (fun s => !(is_argument s))).length < maxV →
        ["-x"].takeWhile (fun s => !(is_argument s)) = ["-x"] →
        collectAndCheck "--foo" '+' ["-x"] =
          .error (ParseErr.missingExpectedArgument "--foo")) ∧
      ((["-x"].takeWhile (fun s => !(is_argument s))).length < maxV →
        ["-x"].takeWhile (fun s => !(is_argument s)) ≠ ["-x"] →
        (["-x"].takeWhile (fun s => !(is_argument s))).length < minV →
        collectAndCheck "--foo" '+' ["-x"] =
          .error (ParseErr.expectedAtLeast minV "--foo")) ∧
      ((["-x"].takeWhile (fun s => !(is_argument s))).length < maxV →
        ["-x"].takeWhile (fun s => !(is_argument s)) ≠ ["-x"] →
        minV ≤ (["-x"].takeWhile (fun s => !(is_argument s))).length →
        collectAndCheck "--foo" '+' ["-x"] =
          .ok (["-x"].takeWhile (fun s => !(is_argument s))))) :=
  C7_multi_arity_collection '+' "--foo" ["-x"] (Or.inr (Or.inr rfl))

/-- One-step unfolding of the lookup construction on a registered Argument. -/
theorem buildTablesAux_cons (a : Argument) (rest : List Argument) (idx : Nat)
    (m : List (String × Nat)) (ps : List Nat) :
    buildTablesAux (a :: rest) idx m ps =
      (if a.long_opt_.length ≤ 1 then .error ParseErr.assertionFailure
       else if a.positional then buildTablesAux rest (idx + 1) m (ps ++ [idx])
       else
         match insertOpt m a.long_opt_ idx with
         | .error e => .error e
         | .ok m1 =>
           match insertOpt m1 a.short_opt_ idx with
           | .error e => .error e
           | .ok m2 => buildTablesAux rest (idx + 1) m2 ps) :=
  rfl

/-- The lookup construction fails whenever two different registered
Arguments (at distinct positions) claim the same option string, or some
Argument claims a string already present in the accumulated map. -/
theorem buildTables_dup_error (s : String) (args : List Argument) :
    ∀ (idx : Nat) (m : List (String × Nat)) (ps : List Nat),
      (∀ x ∈ args, 2 ≤ x.long_opt_.length) →
      ((∃ l1 a l2 b l3, args = l1 ++ a :: l2 ++ b :: l3 ∧ claimsOpt a s ∧ claimsOpt b s) ∨
       (∃ a ∈ args, claimsOpt a s ∧ (m.lookup s).isSome = true)) →
      ∃ e, buildTablesAux args idx m ps = .error e := by
  induction args with
  | nil =>
    intro idx m ps hlen hdisj
    rcases hdisj with ⟨l1, a, l2, b, l3, heq, -, -⟩ | ⟨a, ha, -⟩
    · exact absurd heq (by simp)
    · exact absurd ha (by simp)
  | cons c rest ih =>
    intro idx m ps hlen hdisj
    have hcl : 2 ≤ c.long_opt_.length := hlen c (List.mem_cons_self c rest)
    have hns : ¬ (c.long_opt_.length ≤ 1) := by omega
    have hlenR : ∀ x ∈ rest, 2 ≤ x.long_opt_.length :=
      fun x hx => hlen x (List.mem_cons_of_mem c hx)
    rw [buildTablesAux_cons, if_neg hns]
    rcases hdisj with ⟨l1, a, l2, b, l3, heq, ha, hb⟩ | ⟨a, hamem, hca, hlook⟩
    · cases l1 with
      | nil =>
        simp only [List.nil_append] at heq
        injection heq with h1 h2
        subst h1
        have hpos : c.positional = false := ha.1
        rw [if_neg (by simp [hpos])]
        cases hI1 : insertOpt m c.long_opt_ idx with
        | error e => exact ⟨e, by simp only [hI1]⟩
        | ok m1 =>
          cases hI2 : insertOpt m1 c.short_opt_ idx with
          | error e => exact ⟨e, by simp only [hI1, hI2]⟩
          | ok m2 =>
            have hs2 : (m2.lookup s).isSome = true := by
              rcases ha.2.2 with hL | hS
              · refine insertOpt_mono m1 m2 c.short_opt_ idx s hI2 ?_
                have := insertOpt_self m m1 c.long_opt_ idx
                  (by rw [hL]; exact ha.2.1) hI1
                rw [hL] at this
                exact this
              · have := insertOpt_self m1 m2 c.short_opt_ idx
                  (by rw [hS]; exact ha.2.1) hI2
                rw [hS] at this
                exact this
            simp only [hI1, hI2]
            exact ih (idx + 1) m2 ps hlenR
              (Or.inr ⟨b, by rw [h2]; exact List.mem_append_right l2 (List.mem_cons_self b l3),
                hb, hs2⟩)
      | cons z l1x =>
        simp only [List.cons_append] at heq
        injection heq with h1 h2
        by_cases hpos : c.positional = true
        · rw [if_pos hpos]
          exact ih (idx + 1) m (ps ++ [idx]) hlenR (Or.inl ⟨l1x, a, l2, b, l3, h2, ha, hb⟩)
        · rw [if_neg hpos]
          cases hI1 : insertOpt m c.long_opt_ idx with
          | error e => exact ⟨e, by simp only [hI1]⟩
          | ok m1 =>
            cases hI2 : insertOpt m1 c.short_opt_ idx with
            | error e => exact ⟨e, by simp only [hI1, hI2]⟩
            | ok m2 =>
              simp only [hI1, hI2]
              exact ih (idx + 1) m2 ps hlenR (Or.inl ⟨l1x, a, l2, b, l3, h2, ha, hb⟩)
    · rcases List.mem_cons.mp hamem with heqa | hmem2
      · subst heqa
        have hpos : a.positional = false := hca.1
        rw [if_neg (by simp [hpos])]
        rcases hca.2.2 with hL | hS
        · have hE : insertOpt m a.long_opt_ idx =
              .error (ParseErr.optionMapsToMultiple a.long_opt_) :=
            insertOpt_present_error m a.long_opt_ idx
              (by rw [hL]; exact hca.2.1) (by rw [hL]; exact hlook)
          exact ⟨ParseErr.optionMapsToMultiple a.long_opt_, by simp only [hE]⟩
        · cases hI1 : insertOpt m a.long_opt_ idx with
          | error e => exact ⟨e, by simp only [hI1]⟩
          | ok m1 =>
            have hs1 : (m1.lookup s).isSome = true :=
              insertOpt_mono m m1 a.long_opt_ idx s hI1 hlook
            have hE2 : insertOpt m1 a.short_opt_ idx =
                .error (ParseErr.optionMapsToMultiple a.short_opt_) :=
              insertOpt_present_error m1 a.short_opt_ idx
                (by rw [hS]; exact hca.2.1) (by rw [hS]; exact hs1)
            exact ⟨ParseErr.optionMapsToMultiple a.short_opt_, by simp only [hI1, hE2]⟩
      · by_cases hpos : c.positional = true
        · rw [if_pos hpos]
          exact ih (idx + 1) m (ps ++ [idx]) hlenR (Or.inr ⟨a, hmem2, hca, hlook⟩)
        · rw [if_neg hpos]
          cases hI1 : insertOpt m c.long_opt_ idx with
          | error e => exact ⟨e, by simp only [hI1]⟩
          | ok m1 =>
            cases hI2 : insertOpt m1 c.short_opt_ idx with
            | error e => exact ⟨e, by simp only [hI1, hI2]⟩
            | ok m2 =>
              have hs2 : (m2.lookup s).isSome = true :=
                insertOpt_mono m1 m2 c.short_opt_ idx s hI2
                  (insertOpt_mono m m1 c.long_opt_ idx s hI1 hlook)
              simp only [hI1, hI2]
              exact ih (idx + 1) m2 ps hlenR (Or.inr ⟨a, hmem2, hca, hs2⟩)

/-- Claim C4: when two different registered Arguments (at distinct positions
in the group-then-insertion order, all with classifiable long names) claim
the same option string, every parse_args call fails with one and the same
error independent of the input tokens — so the failure is raised before any
token is examined, also for an empty token list. -/
theorem C4_duplicate_option_strings (p : ArgumentParser) (s : String)
    (l1 l2 l3 : List Argument) (a b : Argument)
    (hsplit : p.allArguments = l1 ++ a :: l2 ++ b :: l3)
    (hlen : ∀ x ∈ p.allArguments, 2 ≤ x.long_opt_.length)
    (ha : claimsOpt a s) (hb : claimsOpt b s) :
    ∃ e, ∀ tokens, p.parse_args tokens = .error e := by
  have hsplit2 : resetDefaults p.allArguments =
      resetDefaults l1 ++ resetArg a :: resetDefaults l2 ++ resetArg b :: resetDefaults l3 := by
    rw [hsplit]
    simp [resetDefaults]
  have hlen2 : ∀ x ∈ resetDefaults p.allArguments, 2 ≤ x.long_opt_.length := by
    intro x hx
    rcases List.mem_map.mp hx with ⟨y, hy, rfl⟩
    rw [resetArg_long]
    exact hlen y hy
  obtain ⟨e, he⟩ := buildTables_dup_error s (resetDefaults p.allArguments) 0 [] []
    hlen2
    (Or.inl ⟨resetDefaults l1, resetArg a, resetDefaults l2, resetArg b, resetDefaults l3,
      hsplit2, (claimsOpt_resetArg a s).mpr ha, (claimsOpt_resetArg b s).mpr hb⟩)
  refine ⟨e, fun tokens => ?_⟩
  unfold ArgumentParser.parse_args parseArgsList parseFromReset
  simp only [he]

/-- Witness for C4_duplicate_option_strings: two Arguments both registering
`--foo` make every call fail, including on the empty input. -/
theorem C4_duplicate_option_strings_witness :
    ∃ e, ∀ tokens, dupParser.parse_args tokens = .error e :=
  C4_duplicate_option_strings dupParser "--foo" [] [] [] fooStoreArg fooCloneArg rfl
    (by decide) ⟨rfl, by decide, Or.inl rfl⟩ ⟨rfl, by decide, Or.inl rfl⟩

end Argparse
